import Mathlib

/-!
Shallow embedding of the dftio repository core
(`src/dftio/data/AtomicDataDict.py`, `src/dftio/io/parse.py`) and proofs
about the claims of its specification.

Modelling conventions:
* numpy float arrays are modelled over `ℚ` (exact rationals); float literals
  such as `1e-10` are mapped to the corresponding rational `1/10^10`.
* A Python `Dict[str, np.ndarray]` record is modelled by a structure with one
  `Option` field per key the code touches; `none` means the key is absent.
* Fallible Python operations (KeyError / IndexError / TypeError / assert /
  raise) are modelled with `Except PyErr`.
* The Python data-model functions mutate their argument dictionary in place
  and return that same dictionary; the embedded function returns the
  post-state of the argument, which is simultaneously the returned record.
* `np.linalg.norm(v, axis=-1)` (a nonnegative float whose exact value is
  floating-point) is abstracted as an explicit function parameter
  `nrm : Vec3 → ℚ`; no claim depends on its numeric value.
-/

namespace Dftio

/-- Python exception kinds raised by the modelled code paths. -/
inductive PyErr where
  | keyError (key : String)
  | indexError
  | valueError (msg : String)
  | typeError (msg : String)
  | zeroDivisionError
  | assertionError (msg : String)
  | notImplementedError (msg : String)
  | exceptionMsg (msg : String)
  | overflowError
deriving DecidableEq

/-- A 3-vector of rationals (one row of a numpy `(...,3)` array). -/
structure Vec3 where
  x : ℚ
  y : ℚ
  z : ℚ
deriving DecidableEq

/-- A 3×3 matrix (one `(3,3)` cell); rows are lattice vectors (ASE convention). -/
structure Mat3 where
  r1 : Vec3
  r2 : Vec3
  r3 : Vec3
deriving DecidableEq

def vzero : Vec3 := ⟨0, 0, 0⟩

def mzero : Mat3 := ⟨vzero, vzero, vzero⟩

/-- Componentwise subtraction of 3-vectors. -/
def vsub (a b : Vec3) : Vec3 := ⟨a.x - b.x, a.y - b.y, a.z - b.z⟩

/-- Componentwise addition of 3-vectors. -/
def vadd (a b : Vec3) : Vec3 := ⟨a.x + b.x, a.y + b.y, a.z + b.z⟩

/-- Scalar multiple of a 3-vector. -/
def vsmul (q : ℚ) (a : Vec3) : Vec3 := ⟨q * a.x, q * a.y, q * a.z⟩

/-- `np.einsum("i,ij->j", s, m)`: the row-convention product `s · m`,
`out[j] = Σ_i s[i] * m[i][j]`, i.e. the shift-weighted sum of lattice rows. -/
def rowDot (s : Vec3) (m : Mat3) : Vec3 :=
  vadd (vadd (vsmul s.x m.r1) (vsmul s.y m.r2)) (vsmul s.z m.r3)

/-- Sum of absolute values of all nine entries of a cell matrix. -/
def sumAbsMat (m : Mat3) : ℚ :=
  |m.r1.x| + |m.r1.y| + |m.r1.z| + |m.r2.x| + |m.r2.y| + |m.r2.z| +
    |m.r3.x| + |m.r3.y| + |m.r3.z|

/-- `np.sum(np.abs(cell))` over a (possibly batched) cell array. -/
def sumAbsCells (l : List Mat3) : ℚ := (l.map sumAbsMat).sum

/-- The gate constant `1e-10` of `AtomicDataDict.py` lines 57/111/164. -/
def cellThreshold : ℚ := 1 / 10 ^ 10

/-- `data[key]`: returns the value or raises `KeyError(key)` when absent. -/
def getField {α : Type} (o : Option α) (key : String) : Except PyErr α :=
  match o with
  | some a => .ok a
  | none => .error (.keyError key)

/-- numpy integer indexing `l[n]`: `IndexError` when out of range. -/
def nthE {α : Type} (l : List α) (n : Nat) : Except PyErr α :=
  match l.get? n with
  | some a => .ok a
  | none => .error .indexError

/-- Structural effectful map over a list (models a vectorized numpy
operation that fails as soon as one element fails). -/
def mapME {α β : Type} (f : α → Except PyErr β) : List α → Except PyErr (List β)
  | [] => .ok []
  | a :: l => do
    let b ← f a
    let bs ← mapME f l
    .ok (b :: bs)

/-- Field names of the key registry (`dftio.data._keys`, not under `src/`);
the string values follow the spec §3 vocabulary.  They only appear inside
error payloads, never in control flow. -/
def posKey : String := "pos"

def edgeIndexKey : String := "edge_index"

def edgeCellShiftKey : String := "edge_cell_shift"

def envIndexKey : String := "env_index"

def envCellShiftKey : String := "env_cell_shift"

def onsitenvIndexKey : String := "onsitenv_index"

def onsitenvCellShiftKey : String := "onsitenv_cell_shift"

def batchKey : String := "batch"

/-- An atomic-graph record: a `Dict[str, np.ndarray]` restricted to the keys
the embedded operations touch.  `pos` is the `(n_atom, 3)` position array,
`edge_index` the `(2, n_edge)` pair array stored as a list of
(source, target) columns (`edge_index[0]` = sources, `edge_index[1]` =
targets), `cell` the `(n_cell, 3, 3)` array after `reshape(-1, 3, 3)`. -/
structure Record where
  pos : Option (List Vec3)
  edge_index : Option (List (Nat × Nat))
  edge_cell_shift : Option (List Vec3)
  edge_vectors : Option (List Vec3)
  edge_lengths : Option (List ℚ)
  env_index : Option (List (Nat × Nat))
  env_cell_shift : Option (List Vec3)
  env_vectors : Option (List Vec3)
  env_lengths : Option (List ℚ)
  onsitenv_index : Option (List (Nat × Nat))
  onsitenv_cell_shift : Option (List Vec3)
  onsitenv_vectors : Option (List Vec3)
  onsitenv_lengths : Option (List ℚ)
  cell : Option (List Mat3)
  batch : Option (List Nat)
  batch_ptr : Option (List Nat)
deriving DecidableEq

/-- The record with every key absent. -/
def Record.empty : Record :=
  ⟨none, none, none, none, none, none, none, none, none, none, none, none,
    none, none, none, none⟩

/-- `pos[index[1]] - pos[index[0]]` (line 56/110/163): the plain pairwise
subtraction target − source, one vector per pair. -/
def plainSubE (pos : List Vec3) (ei : List (Nat × Nat)) :
    Except PyErr (List Vec3) :=
  mapME (fun e => do
    let ps ← nthE pos e.1
    let pt ← nthE pos e.2
    .ok (vsub pt ps)) ei

/-- `cell.squeeze(0)`: removes the leading axis, which must have size 1. -/
def squeeze0 (cl : List Mat3) : Except PyErr Mat3 :=
  match cl with
  | [c] => .ok c
  | _ => .error (.valueError "cannot squeeze axis of size not equal to one")

/-- Lines 56–80 of `AtomicDataDict.py` (repeated verbatim, up to field
names, at lines 108–134 and 161–187): compute the displacement vectors for
one relation kind.  `shiftKey` is the name used in the `KeyError` when the
cell-shift field must be read but is absent.  The source reads the shift
field before testing `cell.shape[0] > 1`, and the batch field only inside
the batched branch; the einsum/broadcast shape requirement
`len(shift) == n_pair` surfaces as a `ValueError`. -/
def computeDisplacement (pos : List Vec3) (ei : List (Nat × Nat))
    (cellOpt : Option (List Mat3)) (shiftOpt : Option (List Vec3))
    (shiftKey : String) (batchOpt : Option (List Nat)) :
    Except PyErr (List Vec3) := do
  let base ← plainSubE pos ei
  match cellOpt with
  | none => .ok base
  | some cl =>
    if cellThreshold < sumAbsCells cl then do
      let shifts ← getField shiftOpt shiftKey
      if 1 < cl.length then do
        let batch ← getField batchOpt batchKey
        -- cell[batch[edge_index[0]]]: per-pair gather of the source cell
        let corr ← mapME (fun p => do
          let b ← nthE batch p.1.1
          let c ← nthE cl b
          .ok (rowDot p.2 c)) (ei.zip shifts)
        if shifts.length = ei.length then
          .ok (List.zipWith vadd base corr)
        else
          .error (.valueError "operands could not be broadcast together")
      else do
        let c ← squeeze0 cl
        if shifts.length = ei.length then
          .ok (List.zipWith (fun v sh => vadd v (rowDot sh c)) base shifts)
        else
          .error (.valueError "operands could not be broadcast together")
    else
      .ok base

/-- `AtomicDataDict.with_edge_vectors` (lines 32–85).  Returns the
post-state of the mutated input dictionary (the Python function returns the
very dictionary it received). -/
def with_edge_vectors (nrm : Vec3 → ℚ) (with_lengths : Bool) (data : Record) :
    Except PyErr Record :=
  match data.edge_vectors with
  | some ev =>
    if with_lengths && data.edge_lengths.isNone then
      .ok { data with edge_lengths := some (ev.map nrm) }
    else
      .ok data
  | none => do
    let pos ← getField data.pos posKey
    let ei ← getField data.edge_index edgeIndexKey
    let ev ← computeDisplacement pos ei data.cell data.edge_cell_shift
      edgeCellShiftKey data.batch
    let d1 := { data with edge_vectors := some ev }
    if with_lengths then
      .ok { d1 with edge_lengths := some (ev.map nrm) }
    else
      .ok d1

/-- `AtomicDataDict.with_env_vectors` (lines 87–138).  On the fresh-build
path with lengths requested, line 137 calls `np.linalg.norm(env_vec, dim=-1)`;
numpy `norm` has no `dim` keyword (that is the torch name), so the call
raises `TypeError` (the memoized path, line 98, correctly uses `axis=-1`). -/
def with_env_vectors (nrm : Vec3 → ℚ) (with_lengths : Bool) (data : Record) :
    Except PyErr Record :=
  match data.env_vectors with
  | some ev =>
    if with_lengths && data.env_lengths.isNone then
      .ok { data with env_lengths := some (ev.map nrm) }
    else
      .ok data
  | none => do
    let pos ← getField data.pos posKey
    let ei ← getField data.env_index envIndexKey
    let ev ← computeDisplacement pos ei data.cell data.env_cell_shift
      envCellShiftKey data.batch
    let _d1 := { data with env_vectors := some ev }
    if with_lengths then
      .error (.typeError "norm got an unexpected keyword argument dim")
    else
      .ok { data with env_vectors := some ev }

/-- `AtomicDataDict.with_onsitenv_vectors` (lines 140–191); line 190 has the
same `dim=-1` TypeError as `with_env_vectors`. -/
def with_onsitenv_vectors (nrm : Vec3 → ℚ) (with_lengths : Bool)
    (data : Record) : Except PyErr Record :=
  match data.onsitenv_vectors with
  | some ev =>
    if with_lengths && data.onsitenv_lengths.isNone then
      .ok { data with onsitenv_lengths := some (ev.map nrm) }
    else
      .ok data
  | none => do
    let pos ← getField data.pos posKey
    let ei ← getField data.onsitenv_index onsitenvIndexKey
    let ev ← computeDisplacement pos ei data.cell data.onsitenv_cell_shift
      onsitenvCellShiftKey data.batch
    let _d1 := { data with onsitenv_vectors := some ev }
    if with_lengths then
      .error (.typeError "norm got an unexpected keyword argument dim")
    else
      .ok { data with onsitenv_vectors := some ev }

/- ------------------------------------------------------------------ -/
/-  Embedding of `src/dftio/io/parse.py`                                -/
/- ------------------------------------------------------------------ -/

/-- numpy dtypes distinguished by `Parser.check_structure`. -/
inductive Dtype where
  | int32
  | int64
  | float32
  | float64
  | bool8
deriving DecidableEq

/-- The view of a numpy array that validation inspects: its shape tuple and
its dtype (the numeric contents play no role in `check_structure`). -/
structure NDArr where
  shape : List Nat
  dtype : Dtype
deriving DecidableEq

/-- A structure record as handed to `Parser.check_structure`: the four
required keys, each possibly absent. -/
structure StructRecord where
  atomic_numbers : Option NDArr
  positions : Option NDArr
  cellArr : Option NDArr
  pbc : Option NDArr
deriving DecidableEq

/-- Modelled from the spec: `dftio.utils.j_must_have` is not under `src/`;
per §7 a required key that is absent from a record raises a
MissingFieldError naming the absent field.  Modelled as `KeyError(key)`. -/
def jMustHave (o : Option NDArr) (key : String) : Except PyErr NDArr :=
  match o with
  | some a => .ok a
  | none => .error (.keyError key)

/-- A Python `assert cond, msg`: raises `AssertionError(msg)` when the
condition is false. -/
def assertE (cond : Bool) (msg : String) : Except PyErr Unit :=
  if cond then .ok () else .error (.assertionError msg)

def atomicNumbersKey : String := "atomic_numbers"

def cellKey : String := "cell"

def pbcKey : String := "pbc"

/-- `Parser.check_structure` (parse.py lines 147–168), on an explicitly
given structure record.  `shape.getD i 0` models `shape[i]` below an
assertion that already fixed the rank (Python tuple indexing). -/
def check_structure (s : StructRecord) : Except PyErr Bool := do
  let atomic_number ← jMustHave s.atomic_numbers atomicNumbersKey
  let pos ← jMustHave s.positions posKey
  let cell ← jMustHave s.cellArr cellKey
  let pbc ← jMustHave s.pbc pbcKey
  assertE (pos.shape.length = 3 && pos.shape.getD 2 0 = 3)
    "The shape of structure should be (n_frame, natom, 3)"
  let n_frame := pos.shape.getD 0 0
  let natom := pos.shape.getD 1 0
  assertE (cell.shape.length = 3 && cell.shape.getD 0 0 = n_frame &&
      cell.shape.getD 1 0 = 3 && cell.shape.getD 2 0 = 3)
    "The shape of cell should be (n_frame, 3, 3)"
  assertE (atomic_number.shape.length = 1 && atomic_number.shape.getD 0 0 = natom)
    "The shape of atomic_number should be (natom,)"
  assertE (pbc.shape.length = 1 && pbc.shape.getD 0 0 = 3)
    "The shape of pbc should be (3)"
  assertE (atomic_number.dtype = Dtype.int32)
    "The dtype of atomic_number should be int"
  assertE (cell.dtype = Dtype.float32) "The dtype of cell should be float"
  assertE (pos.dtype = Dtype.float32) "The dtype of pos should be float"
  assertE (pbc.dtype = Dtype.bool8) "The dtype of pbc should be bool"
  .ok true

/-- The acceptance condition in the words of the claim (refinement side, to
be compared with `check_structure`): positions rank 3 with trailing
dimension 3; cell rank 3 with shape `(n_frame, 3, 3)` matching the frame count
of positions; atomic numbers rank 1 with length equal to the atom count;
periodic flags rank 1 with length 3; atomic numbers 32-bit integers,
positions and cell 32-bit floats, periodic flags boolean. -/
def specStructOK (s : StructRecord) : Bool :=
  match s.atomic_numbers, s.positions, s.cellArr, s.pbc with
  | some an, some pos, some cell, some pbc =>
    (match pos.shape with
     | [nFrame, nAtom, three] =>
       three = 3 && cell.shape = [nFrame, 3, 3] && an.shape = [nAtom] &&
         pbc.shape = [3]
     | _ => false) &&
      an.dtype = Dtype.int32 && pos.dtype = Dtype.float32 &&
      cell.dtype = Dtype.float32 && pbc.dtype = Dtype.bool8
  | _, _, _, _ => false

/-- Which writer `Parser.write` dispatches to; the payload of `datTraj`
is the `fmt` argument forwarded to `write_dat`. -/
inductive WriterCall where
  | hdf5
  | datTraj (fmt : String)
  | lmdbW
deriving DecidableEq

/-- `Parser.write` (parse.py lines 207–215) reduced to its dispatch: the
returned value names the single writer invoked with the given format; the
error branch invokes no writer (performs no writes). -/
def writeDispatch (format : String) : Except PyErr WriterCall :=
  if format = "hdf5" then
    .ok .hdf5
  else if format = "dat" || format = "ase" then
    .ok (.datTraj format)
  else if format = "lmdb" then
    .ok .lmdbW
  else
    .error (.notImplementedError ("Format: " ++ format ++ " is not implemented!"))

/-- Lookup in a name→constructor registry (first binding wins).  Modelled
from the spec: `dftio.register.Register` is not under `src/`; per §4.5 it
is a name-to-constructor mapping with `keys()` and `[]`. -/
def regLookup {γ : Type} : List (String × γ) → String → Option γ
  | [], _ => none
  | (k, v) :: rest, mode => if k = mode then some v else regLookup rest mode

/-- `ParserRegister.__new__` (parse.py lines 32–36): construct the backend
registered under `mode`, or raise an `Exception` naming the requested key
(constructing nothing). -/
def parserRegisterNew {α β : Type} (reg : List (String × (α → β)))
    (mode : String) (kwargs : α) : Except PyErr β :=
  match regLookup reg mode with
  | some ctor => .ok (ctor kwargs)
  | none =>
    .error (.exceptionMsg ("Descriptor mode: " ++ mode ++ " is not registered!"))

/-- The structure argument of `Parser.write_lmdb`: atomic numbers shared by
all frames, per-frame cell and positions, periodic flags. -/
structure LmdbStruct where
  an : List Int
  cellFrames : List Mat3
  posFrames : List (List Vec3)
  pbcFlags : Bool × Bool × Bool
deriving DecidableEq

/-- The per-frame mapping pickled into one lmdb value (structure-only
write: eigenvalue/hamiltonian/overlap/density-matrix flags false, so those
optional keys are absent).  `pickle.dumps`/`loads` round-trips, so the value
is modelled by the mapping itself. -/
structure LmdbFrame where
  an : List Int
  cellF : Mat3
  posF : List Vec3
  pbcF : Bool × Bool × Bool
  idx : Nat
  nf : Nat
deriving DecidableEq

/-- `entries.to_bytes(length=4, byteorder="big")` for `entries < 2^32`:
the four big-endian base-256 digits. -/
def natToBytes4 (n : Nat) : List Nat :=
  [n / 2 ^ 24 % 256, n / 2 ^ 16 % 256, n / 2 ^ 8 % 256, n % 256]

/-- `int.to_bytes(length=4, byteorder="big")`: `OverflowError` when the
integer does not fit in four bytes. -/
def toBytesE (n : Nat) : Except PyErr (List Nat) :=
  if n < 2 ^ 32 then .ok (natToBytes4 n) else .error .overflowError

/-- The lmdb environment: an association list from 4-byte keys to pickled
frame mappings, keys unique by construction of `lmdbPut`. -/
abbrev Store : Type := List (List Nat × LmdbFrame)

/-- Number of entries reported by `lmdb_env.stat()["entries"]`. -/
def Store.entries (st : Store) : Nat := List.length st

def storeFind : Store → List Nat → Option LmdbFrame
  | [], _ => none
  | (k, v) :: rest, key => if k = key then some v else storeFind rest key

/-- `txn.put(key, value)`: replaces the binding when the key exists,
appends a fresh entry otherwise. -/
def lmdbPut (st : Store) (key : List Nat) (v : LmdbFrame) : Store :=
  match storeFind st key with
  | some _ => st.map (fun p => if p.1 = key then (key, v) else p)
  | none => st ++ [(key, v)]

/-- The per-frame mapping built by the loop body of `write_lmdb`
(parse.py lines 307–325) for a structure-only write; `shape[nf]` slices are
fetched with numpy indexing. -/
def mkLmdbFrame (structure_ : LmdbStruct) (idx nf : Nat) :
    Except PyErr LmdbFrame := do
  let cellnf ← nthE structure_.cellFrames nf
  let posnf ← nthE structure_.posFrames nf
  .ok ⟨structure_.an, cellnf, posnf, structure_.pbcFlags, idx, nf⟩

/-- The frame loop of `Parser.write_lmdb` (lines 306–332): for each frame
number, build the per-frame mapping, read the current entry count
of the store, and `put` under the 4-byte big-endian encoding of that count. -/
def lmdbLoop (structure_ : LmdbStruct) (idx : Nat) :
    List Nat → Store → Except PyErr Store
  | [], st => .ok st
  | nf :: rest, st => do
    let v ← mkLmdbFrame structure_ idx nf
    let key ← toBytesE st.entries
    lmdbLoop structure_ idx rest (lmdbPut st key v)

/-- `Parser.write_lmdb` (parse.py lines 295–334) for a structure-only
write, acting on an explicitly given store state (`n_frames =
structure[POSITIONS_KEY].shape[0]`). -/
def write_lmdb (structure_ : LmdbStruct) (idx : Nat) (st : Store) :
    Except PyErr Store :=
  lmdbLoop structure_ idx (List.range structure_.posFrames.length) st

/-- The store contents the claim describes for a fresh store (refinement
side): entry `k` keyed by the 4-byte big-endian encoding of `k`, holding the
frame mapping of frame `k` tagged with the source index. -/
def specLmdbStore (structure_ : LmdbStruct) (idx : Nat) : Store :=
  (List.range structure_.posFrames.length).map fun nf =>
    (natToBytes4 nf,
      ⟨structure_.an, structure_.cellFrames.getD nf mzero,
        structure_.posFrames.getD nf [], structure_.pbcFlags, idx, nf⟩)

/-- `np.arange(start=0, stop=stop, step=step, dtype=np.int64)` for
nonnegative bounds; numpy raises `ZeroDivisionError` when `step == 0`. -/
def arangeNat (stop step : Nat) : Except PyErr (List Nat) :=
  if step = 0 then
    .error .zeroDivisionError
  else
    .ok ((List.range ((stop + step - 1) / step)).map (· * step))

/-- `AtomicDataDict.with_batch` (lines 194–214): defaults the batch index to
all zeros and the batch pointer to `np.arange(0, n_atom + 1, n_atom)`. -/
def with_batch (data : Record) : Except PyErr Record :=
  match data.batch with
  | some _ => .ok data
  | none => do
    let pos ← getField data.pos posKey
    let ptr ← arangeNat (pos.length + 1) pos.length
    .ok { data with batch := some (List.replicate pos.length 0),
                    batch_ptr := some ptr }

/- ------------------------------------------------------------------ -/
/-  Spec-side (claim-worded) reference computations                     -/
/- ------------------------------------------------------------------ -/

/-- Claim-side reference: plain pairwise subtraction
`positions[target] - positions[source]`, one vector per pair. -/
def plainVecs (pos : List Vec3) (ei : List (Nat × Nat)) : List Vec3 :=
  ei.map fun e => vsub (pos.getD e.2 vzero) (pos.getD e.1 vzero)

/-- Claim-side reference for a single cell:
`positions[target] - positions[source] + shift · cell` per edge. -/
def claimedSingleVecs (pos : List Vec3) (ei : List (Nat × Nat))
    (shifts : List Vec3) (c : Mat3) : List Vec3 :=
  List.zipWith
    (fun e sh => vadd (vsub (pos.getD e.2 vzero) (pos.getD e.1 vzero)) (rowDot sh c))
    ei shifts

/-- Claim-side reference for a batched record:
`positions[target] - positions[source] + shift · cell[batch[source]]` per edge. -/
def claimedBatchedVecs (pos : List Vec3) (ei : List (Nat × Nat))
    (shifts : List Vec3) (cl : List Mat3) (batch : List Nat) : List Vec3 :=
  List.zipWith
    (fun e sh =>
      vadd (vsub (pos.getD e.2 vzero) (pos.getD e.1 vzero))
        (rowDot sh (cl.getD (batch.getD e.1 0) mzero)))
    ei shifts

/-- All pair indices address existing atoms. -/
def boundsOK (pos : List Vec3) (ei : List (Nat × Nat)) : Prop :=
  ∀ e ∈ ei, e.1 < pos.length ∧ e.2 < pos.length

/- ------------------------------------------------------------------ -/
/-  Helper lemmas                                                      -/
/- ------------------------------------------------------------------ -/

instance {ε α : Type} [DecidableEq ε] [DecidableEq α] :
    DecidableEq (Except ε α) := fun x y =>
  match x, y with
  | .ok a, .ok b =>
    if h : a = b then .isTrue (congrArg Except.ok h)
    else .isFalse (fun hc => h (Except.ok.inj hc))
  | .error e, .error f =>
    if h : e = f then .isTrue (congrArg Except.error h)
    else .isFalse (fun hc => h (Except.error.inj hc))
  | .ok _, .error _ => .isFalse (fun hc => Except.noConfusion hc)
  | .error _, .ok _ => .isFalse (fun hc => Except.noConfusion hc)

@[simp] lemma ok_bind {α β : Type} (a : α) (f : α → Except PyErr β) :
    (Except.ok a >>= f) = f a := rfl

@[simp] lemma error_bind {α β : Type} (e : PyErr) (f : α → Except PyErr β) :
    ((Except.error e : Except PyErr α) >>= f) = .error e := rfl

lemma bind_eq_ok {α β : Type} {x : Except PyErr α} {f : α → Except PyErr β}
    {b : β} : (x >>= f) = .ok b ↔ ∃ a, x = .ok a ∧ f a = .ok b := by
  cases x <;> simp

@[simp] lemma getField_some {α : Type} (a : α) (k : String) :
    getField (some a) k = .ok a := rfl

@[simp] lemma getField_none {α : Type} (k : String) :
    getField (none : Option α) k = .error (.keyError k) := rfl

lemma nthE_eq_getD {α : Type} (l : List α) (n : Nat) (dflt : α)
    (h : n < l.length) : nthE l n = .ok (l.getD n dflt) := by
  unfold nthE
  rw [List.getD_eq_get?, List.get?_eq_get h]
  simp

lemma mapME_ok_of {α β : Type} {f : α → Except PyErr β} {g : α → β}
    {l : List α} (h : ∀ a ∈ l, f a = .ok (g a)) : mapME f l = .ok (l.map g) := by
  induction l with
  | nil => simp [mapME]
  | cons a l ih =>
    have ha := h a (List.mem_cons_self a l)
    have hl : ∀ x ∈ l, f x = .ok (g x) := fun x hx => h x (List.mem_cons_of_mem a hx)
    simp [mapME, ha, ih hl]

lemma plainSubE_ok {pos : List Vec3} {ei : List (Nat × Nat)}
    (h : boundsOK pos ei) : plainSubE pos ei = .ok (plainVecs pos ei) := by
  refine mapME_ok_of fun e he => ?_
  rcases h e he with ⟨h1, h2⟩
  rw [show (do
      let ps ← nthE pos e.1
      let pt ← nthE pos e.2
      Except.ok (vsub pt ps)) =
      (nthE pos e.1 >>= fun ps => nthE pos e.2 >>= fun pt => .ok (vsub pt ps)) from rfl]
  rw [nthE_eq_getD pos e.1 vzero h1, nthE_eq_getD pos e.2 vzero h2]
  simp

/-- Absent cell: the displacement is the plain subtraction. -/
lemma computeDisplacement_no_cell {pos : List Vec3} {ei : List (Nat × Nat)}
    {shiftOpt : Option (List Vec3)} {sk : String} {batchOpt : Option (List Nat)}
    (hb : boundsOK pos ei) :
    computeDisplacement pos ei none shiftOpt sk batchOpt =
      .ok (plainVecs pos ei) := by
  simp [computeDisplacement, plainSubE_ok hb]

/-- Cell at or below the `1e-10` gate: the displacement is the plain
subtraction, and neither the shift nor the batch field is consulted. -/
lemma computeDisplacement_small_cell {pos : List Vec3} {ei : List (Nat × Nat)}
    {cl : List Mat3} {shiftOpt : Option (List Vec3)} {sk : String}
    {batchOpt : Option (List Nat)} (hb : boundsOK pos ei)
    (hs : sumAbsCells cl ≤ cellThreshold) :
    computeDisplacement pos ei (some cl) shiftOpt sk batchOpt =
      .ok (plainVecs pos ei) := by
  simp [computeDisplacement, plainSubE_ok hb, not_lt.mpr hs]

/-- Single cell above the gate: per-edge correction `shift · cell`. -/
lemma computeDisplacement_single_cell {pos : List Vec3} {ei : List (Nat × Nat)}
    {c : Mat3} {shifts : List Vec3} {sk : String} {batchOpt : Option (List Nat)}
    (hb : boundsOK pos ei) (hs : cellThreshold < sumAbsCells [c])
    (hlen : shifts.length = ei.length) :
    computeDisplacement pos ei (some [c]) (some shifts) sk batchOpt =
      .ok (claimedSingleVecs pos ei shifts c) := by
  simp only [computeDisplacement, plainSubE_ok hb, ok_bind, hs, if_true,
    getField_some, List.length_singleton, squeeze0, hlen]
  norm_num
  simp [claimedSingleVecs, plainVecs, List.zipWith_map_left]

/-- Batched cell above the gate: per-edge correction
`shift · cell[batch[source]]`. -/
lemma computeDisplacement_batched {pos : List Vec3} {ei : List (Nat × Nat)}
    {cl : List Mat3} {shifts : List Vec3} {sk : String} {batch : List Nat}
    (hb : boundsOK pos ei) (hn : 1 < cl.length)
    (hs : cellThreshold < sumAbsCells cl)
    (hg : ∀ p ∈ ei.zip shifts, p.1.1 < batch.length ∧
      batch.getD p.1.1 0 < cl.length)
    (hlen : shifts.length = ei.length) :
    computeDisplacement pos ei (some cl) (some shifts) sk (some batch) =
      .ok (claimedBatchedVecs pos ei shifts cl batch) := by
  have hcorr : mapME (fun p => do
      let b ← nthE batch p.1.1
      let c ← nthE cl b
      Except.ok (rowDot p.2 c)) (ei.zip shifts) =
      .ok ((ei.zip shifts).map fun p =>
        rowDot p.2 (cl.getD (batch.getD p.1.1 0) mzero)) := by
    refine mapME_ok_of fun p hp => ?_
    rcases hg p hp with ⟨h1, h2⟩
    rw [show (do
        let b ← nthE batch p.1.1
        let c ← nthE cl b
        Except.ok (rowDot p.2 c)) =
        (nthE batch p.1.1 >>= fun b => nthE cl b >>= fun c =>
          .ok (rowDot p.2 c)) from rfl]
    rw [nthE_eq_getD batch p.1.1 0 h1, ok_bind, nthE_eq_getD cl _ mzero h2]
    simp
  simp only [computeDisplacement, plainSubE_ok hb, ok_bind, hs, if_true, hn,
    getField_some, hcorr, hlen]
  norm_num
  clear hb hg hcorr hs hn
  induction ei generalizing shifts with
  | nil => simp [claimedBatchedVecs]
  | cons e ei ih =>
    cases shifts with
    | nil => simp at hlen
    | cons sh shifts =>
      simp only [List.length_cons, Nat.succ_inj] at hlen
      simp [claimedBatchedVecs, plainVecs] at ih ⊢
      exact ih hlen

/-- Fresh-build evaluation of `with_edge_vectors`. -/
lemma wev_fresh {nrm : Vec3 → ℚ} {wl : Bool} {d : Record} {pos : List Vec3}
    {ei : List (Nat × Nat)} {ev : List Vec3} (hv : d.edge_vectors = none)
    (hp : d.pos = some pos) (he : d.edge_index = some ei)
    (hc : computeDisplacement pos ei d.cell d.edge_cell_shift edgeCellShiftKey
      d.batch = .ok ev) :
    with_edge_vectors nrm wl d =
      .ok (if wl then
        { d with edge_vectors := some ev, edge_lengths := some (ev.map nrm) }
      else
        { d with edge_vectors := some ev }) := by
  simp only [with_edge_vectors, hv, hp, he, getField_some, ok_bind, hc]
  cases wl <;> rfl

/-- Fresh-build evaluation of `with_env_vectors` without lengths. -/
lemma wenv_fresh_false {nrm : Vec3 → ℚ} {d : Record} {pos : List Vec3}
    {ei : List (Nat × Nat)} {ev : List Vec3} (hv : d.env_vectors = none)
    (hp : d.pos = some pos) (he : d.env_index = some ei)
    (hc : computeDisplacement pos ei d.cell d.env_cell_shift envCellShiftKey
      d.batch = .ok ev) :
    with_env_vectors nrm false d = .ok { d with env_vectors := some ev } := by
  simp only [with_env_vectors, hv, hp, he, getField_some, ok_bind, hc]
  rfl

/-- Fresh-build `with_env_vectors` with lengths requested raises the
`dim` TypeError. -/
lemma wenv_fresh_true_err {nrm : Vec3 → ℚ} {d : Record} {pos : List Vec3}
    {ei : List (Nat × Nat)} {ev : List Vec3} (hv : d.env_vectors = none)
    (hp : d.pos = some pos) (he : d.env_index = some ei)
    (hc : computeDisplacement pos ei d.cell d.env_cell_shift envCellShiftKey
      d.batch = .ok ev) :
    with_env_vectors nrm true d =
      .error (.typeError "norm got an unexpected keyword argument dim") := by
  simp only [with_env_vectors, hv, hp, he, getField_some, ok_bind, hc]
  rfl

/-- Fresh-build evaluation of `with_onsitenv_vectors` without lengths. -/
lemma wonsite_fresh_false {nrm : Vec3 → ℚ} {d : Record} {pos : List Vec3}
    {ei : List (Nat × Nat)} {ev : List Vec3} (hv : d.onsitenv_vectors = none)
    (hp : d.pos = some pos) (he : d.onsitenv_index = some ei)
    (hc : computeDisplacement pos ei d.cell d.onsitenv_cell_shift
      onsitenvCellShiftKey d.batch = .ok ev) :
    with_onsitenv_vectors nrm false d =
      .ok { d with onsitenv_vectors := some ev } := by
  simp only [with_onsitenv_vectors, hv, hp, he, getField_some, ok_bind, hc]
  rfl

/-- Any successful `with_edge_vectors` result carries edge vectors, and
lengths as well when they were requested. -/
lemma wev_ok_post {nrm : Vec3 → ℚ} {wl : Bool} {d r : Record}
    (h : with_edge_vectors nrm wl d = .ok r) :
    r.edge_vectors.isSome = true ∧ (wl = true → r.edge_lengths.isSome = true) := by
  cases hv : d.edge_vectors with
  | some ev =>
    simp only [with_edge_vectors, hv] at h
    by_cases hc : (wl && d.edge_lengths.isNone) = true
    · rw [if_pos hc] at h
      cases h
      simp
    · rw [if_neg hc] at h
      cases h
      constructor
      · simp [hv]
      · intro hwl
        subst hwl
        simp only [Bool.true_and, Bool.not_eq_true] at hc
        simp [Option.isNone_eq_false_iff] at hc
        simpa using hc
  | none =>
    simp only [with_edge_vectors, hv, bind_eq_ok] at h
    rcases h with ⟨pos, hp, h⟩
    rcases h with ⟨ei, he, h⟩
    rcases h with ⟨ev, hev, h⟩
    cases wl with
    | false =>
      simp only [Bool.false_eq_true, if_false] at h
      cases h
      simp
    | true =>
      simp only [if_true] at h
      cases h
      simp

/-- Analogue of `wev_ok_post` for `with_env_vectors`. -/
lemma wenv_ok_post {nrm : Vec3 → ℚ} {wl : Bool} {d r : Record}
    (h : with_env_vectors nrm wl d = .ok r) :
    r.env_vectors.isSome = true ∧ (wl = true → r.env_lengths.isSome = true) := by
  cases hv : d.env_vectors with
  | some ev =>
    simp only [with_env_vectors, hv] at h
    by_cases hc : (wl && d.env_lengths.isNone) = true
    · rw [if_pos hc] at h
      cases h
      simp
    · rw [if_neg hc] at h
      cases h
      constructor
      · simp [hv]
      · intro hwl
        subst hwl
        simp only [Bool.true_and, Bool.not_eq_true] at hc
        simp [Option.isNone_eq_false_iff] at hc
        simpa using hc
  | none =>
    simp only [with_env_vectors, hv, bind_eq_ok] at h
    rcases h with ⟨pos, hp, h⟩
    rcases h with ⟨ei, he, h⟩
    rcases h with ⟨ev, hev, h⟩
    cases wl with
    | false =>
      simp only [Bool.false_eq_true, if_false] at h
      cases h
      simp
    | true => simp at h

/-- Analogue of `wev_ok_post` for `with_onsitenv_vectors`. -/
lemma wonsite_ok_post {nrm : Vec3 → ℚ} {wl : Bool} {d r : Record}
    (h : with_onsitenv_vectors nrm wl d = .ok r) :
    r.onsitenv_vectors.isSome = true ∧
      (wl = true → r.onsitenv_lengths.isSome = true) := by
  cases hv : d.onsitenv_vectors with
  | some ev =>
    simp only [with_onsitenv_vectors, hv] at h
    by_cases hc : (wl && d.onsitenv_lengths.isNone) = true
    · rw [if_pos hc] at h
      cases h
      simp
    · rw [if_neg hc] at h
      cases h
      constructor
      · simp [hv]
      · intro hwl
        subst hwl
        simp only [Bool.true_and, Bool.not_eq_true] at hc
        simp [Option.isNone_eq_false_iff] at hc
        simpa using hc
  | none =>
    simp only [with_onsitenv_vectors, hv, bind_eq_ok] at h
    rcases h with ⟨pos, hp, h⟩
    rcases h with ⟨ei, he, h⟩
    rcases h with ⟨ev, hev, h⟩
    cases wl with
    | false =>
      simp only [Bool.false_eq_true, if_false] at h
      cases h
      simp
    | true => simp at h

/-- `r` agrees with `d` on every field except the edge vectors/lengths. -/
def eqExceptEdge (d r : Record) : Prop :=
  r.pos = d.pos ∧ r.edge_index = d.edge_index ∧
    r.edge_cell_shift = d.edge_cell_shift ∧ r.env_index = d.env_index ∧
    r.env_cell_shift = d.env_cell_shift ∧ r.env_vectors = d.env_vectors ∧
    r.env_lengths = d.env_lengths ∧ r.onsitenv_index = d.onsitenv_index ∧
    r.onsitenv_cell_shift = d.onsitenv_cell_shift ∧
    r.onsitenv_vectors = d.onsitenv_vectors ∧
    r.onsitenv_lengths = d.onsitenv_lengths ∧ r.cell = d.cell ∧
    r.batch = d.batch ∧ r.batch_ptr = d.batch_ptr

/-- `r` agrees with `d` on every field except the env vectors/lengths. -/
def eqExceptEnv (d r : Record) : Prop :=
  r.pos = d.pos ∧ r.edge_index = d.edge_index ∧
    r.edge_cell_shift = d.edge_cell_shift ∧ r.edge_vectors = d.edge_vectors ∧
    r.edge_lengths = d.edge_lengths ∧ r.env_index = d.env_index ∧
    r.env_cell_shift = d.env_cell_shift ∧ r.onsitenv_index = d.onsitenv_index ∧
    r.onsitenv_cell_shift = d.onsitenv_cell_shift ∧
    r.onsitenv_vectors = d.onsitenv_vectors ∧
    r.onsitenv_lengths = d.onsitenv_lengths ∧ r.cell = d.cell ∧
    r.batch = d.batch ∧ r.batch_ptr = d.batch_ptr

/-- `r` agrees with `d` on every field except the on-site-env
vectors/lengths. -/
def eqExceptOnsite (d r : Record) : Prop :=
  r.pos = d.pos ∧ r.edge_index = d.edge_index ∧
    r.edge_cell_shift = d.edge_cell_shift ∧ r.edge_vectors = d.edge_vectors ∧
    r.edge_lengths = d.edge_lengths ∧ r.env_index = d.env_index ∧
    r.env_cell_shift = d.env_cell_shift ∧ r.env_vectors = d.env_vectors ∧
    r.env_lengths = d.env_lengths ∧ r.onsitenv_index = d.onsitenv_index ∧
    r.onsitenv_cell_shift = d.onsitenv_cell_shift ∧ r.cell = d.cell ∧
    r.batch = d.batch ∧ r.batch_ptr = d.batch_ptr

/-- `r` agrees with `d` on every field except batch and batch pointer. -/
def eqExceptBatch (d r : Record) : Prop :=
  r.pos = d.pos ∧ r.edge_index = d.edge_index ∧
    r.edge_cell_shift = d.edge_cell_shift ∧ r.edge_vectors = d.edge_vectors ∧
    r.edge_lengths = d.edge_lengths ∧ r.env_index = d.env_index ∧
    r.env_cell_shift = d.env_cell_shift ∧ r.env_vectors = d.env_vectors ∧
    r.env_lengths = d.env_lengths ∧ r.onsitenv_index = d.onsitenv_index ∧
    r.onsitenv_cell_shift = d.onsitenv_cell_shift ∧
    r.onsitenv_vectors = d.onsitenv_vectors ∧
    r.onsitenv_lengths = d.onsitenv_lengths ∧ r.cell = d.cell

/-- `with_edge_vectors` touches only its own derived fields. -/
lemma wev_frame {nrm : Vec3 → ℚ} {wl : Bool} {d r : Record}
    (h : with_edge_vectors nrm wl d = .ok r) : eqExceptEdge d r := by
  cases hv : d.edge_vectors with
  | some ev =>
    simp only [with_edge_vectors, hv] at h
    by_cases hc : (wl && d.edge_lengths.isNone) = true
    · rw [if_pos hc] at h
      cases h
      simp [eqExceptEdge]
    · rw [if_neg hc] at h
      cases h
      simp [eqExceptEdge]
  | none =>
    simp only [with_edge_vectors, hv, bind_eq_ok] at h
    rcases h with ⟨pos, hp, h⟩
    rcases h with ⟨ei, he, h⟩
    rcases h with ⟨ev, hev, h⟩
    cases wl with
    | false =>
      simp only [Bool.false_eq_true, if_false] at h
      cases h
      simp [eqExceptEdge]
    | true =>
      simp only [if_true] at h
      cases h
      simp [eqExceptEdge]

/-- `with_env_vectors` touches only its own derived fields. -/
lemma wenv_frame {nrm : Vec3 → ℚ} {wl : Bool} {d r : Record}
    (h : with_env_vectors nrm wl d = .ok r) : eqExceptEnv d r := by
  cases hv : d.env_vectors with
  | some ev =>
    simp only [with_env_vectors, hv] at h
    by_cases hc : (wl && d.env_lengths.isNone) = true
    · rw [if_pos hc] at h
      cases h
      simp [eqExceptEnv]
    · rw [if_neg hc] at h
      cases h
      simp [eqExceptEnv]
  | none =>
    simp only [with_env_vectors, hv, bind_eq_ok] at h
    rcases h with ⟨pos, hp, h⟩
    rcases h with ⟨ei, he, h⟩
    rcases h with ⟨ev, hev, h⟩
    cases wl with
    | false =>
      simp only [Bool.false_eq_true, if_false] at h
      cases h
      simp [eqExceptEnv]
    | true => simp at h

/-- `with_onsitenv_vectors` touches only its own derived fields. -/
lemma wonsite_frame {nrm : Vec3 → ℚ} {wl : Bool} {d r : Record}
    (h : with_onsitenv_vectors nrm wl d = .ok r) : eqExceptOnsite d r := by
  cases hv : d.onsitenv_vectors with
  | some ev =>
    simp only [with_onsitenv_vectors, hv] at h
    by_cases hc : (wl && d.onsitenv_lengths.isNone) = true
    · rw [if_pos hc] at h
      cases h
      simp [eqExceptOnsite]
    · rw [if_neg hc] at h
      cases h
      simp [eqExceptOnsite]
  | none =>
    simp only [with_onsitenv_vectors, hv, bind_eq_ok] at h
    rcases h with ⟨pos, hp, h⟩
    rcases h with ⟨ei, he, h⟩
    rcases h with ⟨ev, hev, h⟩
    cases wl with
    | false =>
      simp only [Bool.false_eq_true, if_false] at h
      cases h
      simp [eqExceptOnsite]
    | true => simp at h

/-- `with_batch` touches only the batch and batch-pointer fields. -/
lemma wbatch_frame {d r : Record} (h : with_batch d = .ok r) :
    eqExceptBatch d r := by
  cases hb : d.batch with
  | some b =>
    simp only [with_batch, hb] at h
    cases h
    simp [eqExceptBatch]
  | none =>
    simp only [with_batch, hb, bind_eq_ok] at h
    rcases h with ⟨pos, hp, h⟩
    rcases h with ⟨ptr, hptr, h⟩
    cases h
    simp [eqExceptBatch]

/-- `np.arange(0, n + 1, n)` equals `[0, n]` for `n ≥ 1`. -/
lemma arangeNat_ok {n : Nat} (h : 1 ≤ n) :
    arangeNat (n + 1) n = .ok [0, n] := by
  have hn : n ≠ 0 := Nat.one_le_iff_ne_zero.mp h
  have hq : (n + 1 + n - 1) / n = 2 := by
    have : n + 1 + n - 1 = 2 * n := by omega
    rw [this, Nat.mul_div_cancel _ (Nat.pos_of_ne_zero hn)]
  have hq2 : (n + n) / n = 2 := by
    have : n + n = 2 * n := by omega
    rw [this, Nat.mul_div_cancel _ (Nat.pos_of_ne_zero hn)]
  simp [arangeNat, hn, hq, hq2, List.range_succ]

lemma assertE_bind {c : Bool} {m : String} {f : Unit → Except PyErr Bool}
    {v : Bool} : (assertE c m >>= f) = .ok v ↔ c = true ∧ f () = .ok v := by
  cases c <;> simp [assertE]

@[simp] lemma getD_lit0 {α : Type} (a : α) (t : List α) (d : α) :
    (a :: t).getD 0 d = a := rfl

@[simp] lemma getD_lit1 {α : Type} (a b : α) (t : List α) (d : α) :
    (a :: b :: t).getD 1 d = b := rfl

@[simp] lemma getD_lit2 {α : Type} (a b c : α) (t : List α) (d : α) :
    (a :: b :: c :: t).getD 2 d = c := rfl

/-- The embedded validator accepts exactly the records the claim describes. -/
lemma check_structure_iff (s : StructRecord) :
    check_structure s = .ok true ↔ specStructOK s = true := by
  cases han : s.atomic_numbers with
  | none => simp [check_structure, jMustHave, han, specStructOK]
  | some an =>
  cases hpos : s.positions with
  | none => simp [check_structure, jMustHave, han, hpos, specStructOK]
  | some pos =>
  cases hcell : s.cellArr with
  | none => simp [check_structure, jMustHave, han, hpos, hcell, specStructOK]
  | some cell =>
  cases hpbc : s.pbc with
  | none => simp [check_structure, jMustHave, han, hpos, hcell, hpbc, specStructOK]
  | some pbc =>
  obtain ⟨ashape, adt⟩ := an
  obtain ⟨pshape, pdt⟩ := pos
  obtain ⟨cshape, cdt⟩ := cell
  obtain ⟨bshape, bdt⟩ := pbc
  simp only [check_structure, jMustHave, han, hpos, hcell, hpbc, ok_bind,
    assertE_bind, specStructOK]
  constructor
  · intro h
    simp only [Bool.and_eq_true, decide_eq_true_eq, and_true] at h
    obtain ⟨⟨hlen3, htrail⟩, ⟨⟨⟨hclen, hc0⟩, hc1⟩, hc2⟩, ⟨hal, ha0⟩,
      ⟨hbl, hb0⟩, had, hcd, hpd, hbd⟩ := h
    obtain ⟨a, b, c, rfl⟩ := List.length_eq_three.mp hlen3
    obtain ⟨u, v, w, rfl⟩ := List.length_eq_three.mp hclen
    obtain ⟨x, rfl⟩ := List.length_eq_one.mp hal
    obtain ⟨y, rfl⟩ := List.length_eq_one.mp hbl
    simp only [getD_lit0, getD_lit1, getD_lit2] at htrail hc0 hc1 hc2 ha0 hb0
    subst htrail hc0 hc1 hc2 ha0 hb0
    simp [had, hcd, hpd, hbd]
  · intro h
    simp only [Bool.and_eq_true, decide_eq_true_eq] at h
    obtain ⟨⟨⟨⟨hM, had⟩, hpd⟩, hcd⟩, hbd⟩ := h
    cases pshape with
    | nil => simp at hM
    | cons a t =>
      cases t with
      | nil => simp at hM
      | cons b t2 =>
        cases t2 with
        | nil => simp at hM
        | cons c t3 =>
          cases t3 with
          | cons d t4 => simp at hM
          | nil =>
            simp only [Bool.and_eq_true, decide_eq_true_eq] at hM
            obtain ⟨⟨⟨hc3, hcs⟩, has⟩, hbs⟩ := hM
            subst hc3 hcs has hbs
            simp [had, hcd, hpd, hbd]

/-- The frame mapping written for frame `nf` (claim-side indexing form). -/
def frameAt (structure_ : LmdbStruct) (idx nf : Nat) : LmdbFrame :=
  ⟨structure_.an, structure_.cellFrames.getD nf mzero,
    structure_.posFrames.getD nf [], structure_.pbcFlags, idx, nf⟩

/-- Store contents after the first `m` frames of a fresh-store write. -/
def expectedPrefix (structure_ : LmdbStruct) (idx m : Nat) : Store :=
  (List.range m).map fun nf => (natToBytes4 nf, frameAt structure_ idx nf)

lemma natToBytes4_inj {a b : Nat} (ha : a < 2 ^ 32) (hb : b < 2 ^ 32)
    (h : natToBytes4 a = natToBytes4 b) : a = b := by
  simp only [natToBytes4, List.cons.injEq, and_true] at h
  omega

lemma storeFind_append (l1 l2 : Store) (k : List Nat) :
    storeFind (l1 ++ l2) k =
      match storeFind l1 k with
      | some v => some v
      | none => storeFind l2 k := by
  induction l1 with
  | nil => simp [storeFind]
  | cons p l1 ih =>
    by_cases hk : p.1 = k
    · simp [storeFind, hk]
    · simp [storeFind, hk, ih]

lemma storeFind_expectedPrefix_none {structure_ : LmdbStruct} {idx m : Nat}
    {key : List Nat} (h : ∀ j < m, natToBytes4 j ≠ key) :
    storeFind (expectedPrefix structure_ idx m) key = none := by
  induction m with
  | zero => simp [expectedPrefix, storeFind]
  | succ m ih =>
    have hm : ∀ j < m, natToBytes4 j ≠ key := fun j hj =>
      h j (Nat.lt_succ_of_lt hj)
    simp only [expectedPrefix, List.range_succ, List.map_append, List.map_cons,
      List.map_nil, storeFind_append]
    rw [show (List.range m).map
        (fun nf => (natToBytes4 nf, frameAt structure_ idx nf)) =
        expectedPrefix structure_ idx m from rfl]
    rw [ih hm]
    simp [storeFind, h m (Nat.lt_succ_self m)]

lemma lmdbPut_fresh {st : Store} {key : List Nat} {v : LmdbFrame}
    (h : storeFind st key = none) : lmdbPut st key v = st ++ [(key, v)] := by
  simp [lmdbPut, h]

lemma mkLmdbFrame_ok {structure_ : LmdbStruct} {idx nf : Nat}
    (hc : nf < structure_.cellFrames.length)
    (hp : nf < structure_.posFrames.length) :
    mkLmdbFrame structure_ idx nf = .ok (frameAt structure_ idx nf) := by
  rw [show mkLmdbFrame structure_ idx nf =
      (nthE structure_.cellFrames nf >>= fun cellnf =>
        nthE structure_.posFrames nf >>= fun posnf =>
          .ok ⟨structure_.an, cellnf, posnf, structure_.pbcFlags, idx, nf⟩)
    from rfl]
  rw [nthE_eq_getD _ _ mzero hc, ok_bind, nthE_eq_getD _ _ [] hp]
  simp [frameAt]

lemma lmdbLoop_spec (structure_ : LmdbStruct) (idx : Nat)
    (hcl : structure_.cellFrames.length = structure_.posFrames.length)
    (hfit : structure_.posFrames.length ≤ 2 ^ 32) :
    ∀ (k a : Nat), a + k = structure_.posFrames.length →
      lmdbLoop structure_ idx (List.range' a k)
        (expectedPrefix structure_ idx a) =
        .ok (expectedPrefix structure_ idx structure_.posFrames.length) := by
  intro k
  induction k with
  | zero =>
    intro a ha
    simp only [Nat.add_zero] at ha
    simp [lmdbLoop, ha]
  | succ k ih =>
    intro a ha
    have haless : a < structure_.posFrames.length := by omega
    have ha32 : a < 2 ^ 32 := lt_of_lt_of_le haless hfit
    have hstep : lmdbLoop structure_ idx (List.range' a (k + 1))
        (expectedPrefix structure_ idx a) =
        lmdbLoop structure_ idx (List.range' (a + 1) k)
          (expectedPrefix structure_ idx (a + 1)) := by
      rw [List.range'_succ]
      rw [show lmdbLoop structure_ idx (a :: List.range' (a + 1) k)
          (expectedPrefix structure_ idx a) =
          (mkLmdbFrame structure_ idx a >>= fun v =>
            toBytesE (expectedPrefix structure_ idx a).entries >>= fun key =>
              lmdbLoop structure_ idx (List.range' (a + 1) k)
                (lmdbPut (expectedPrefix structure_ idx a) key v)) from rfl]
      rw [mkLmdbFrame_ok (hcl ▸ haless) haless, ok_bind]
      have hent : (expectedPrefix structure_ idx a).entries = a := by
        simp [expectedPrefix, Store.entries]
      rw [hent]
      have habytes : toBytesE a = .ok (natToBytes4 a) := by
        unfold toBytesE
        rw [if_pos ha32]
      rw [habytes, ok_bind]
      have hfind : storeFind (expectedPrefix structure_ idx a)
          (natToBytes4 a) = none := by
        refine storeFind_expectedPrefix_none fun j hj hcontra => ?_
        have : j = a := natToBytes4_inj (lt_trans hj ha32) ha32 hcontra
        omega
      rw [lmdbPut_fresh hfind]
      congr 1
      simp [expectedPrefix, List.range_succ]
    rw [hstep]
    exact ih (a + 1) (by omega)

/-- Writing into a fresh store produces exactly the claim-side store. -/
lemma write_lmdb_fresh (structure_ : LmdbStruct) (idx : Nat)
    (hcl : structure_.cellFrames.length = structure_.posFrames.length)
    (hfit : structure_.posFrames.length ≤ 2 ^ 32) :
    write_lmdb structure_ idx [] = .ok (specLmdbStore structure_ idx) := by
  have h0 : expectedPrefix structure_ idx 0 = [] := by simp [expectedPrefix]
  have hn : specLmdbStore structure_ idx =
      expectedPrefix structure_ idx structure_.posFrames.length := rfl
  rw [write_lmdb, List.range_eq_range', hn, ← h0]
  exact lmdbLoop_spec structure_ idx hcl hfit structure_.posFrames.length 0
    (by omega)

/- ------------------------------------------------------------------ -/
/-  Concrete fixtures for witnesses and counterexamples                -/
/- ------------------------------------------------------------------ -/

/-- A concrete stand-in for the abstracted norm primitive. -/
def nrm0 : Vec3 → ℚ := fun _ => 0

/-- Two atoms, one edge, no cell. -/
def dEdgeW : Record := { Record.empty with
  pos := some [⟨0, 0, 0⟩, ⟨1, 0, 0⟩],
  edge_index := some [(0, 1)] }

/-- `dEdgeW` after one fresh derivation without lengths. -/
def rEdgeW : Record := { dEdgeW with edge_vectors := some [⟨1, 0, 0⟩] }

/-- Two atoms, one environment pair, no cell. -/
def dEnvW : Record := { Record.empty with
  pos := some [⟨0, 0, 0⟩, ⟨1, 0, 0⟩],
  env_index := some [(0, 1)] }

/-- `dEnvW` after one fresh derivation without lengths. -/
def rEnvW : Record := { dEnvW with env_vectors := some [⟨1, 0, 0⟩] }

/-- Two atoms, one on-site-environment pair, no cell. -/
def dOnsW : Record := { Record.empty with
  pos := some [⟨0, 0, 0⟩, ⟨1, 0, 0⟩],
  onsitenv_index := some [(0, 1)] }

/-- `dOnsW` after one fresh derivation without lengths. -/
def rOnsW : Record := { dOnsW with onsitenv_vectors := some [⟨1, 0, 0⟩] }

lemma dEdgeW_eval : with_edge_vectors nrm0 false dEdgeW = .ok rEdgeW := by
  norm_num [with_edge_vectors, dEdgeW, rEdgeW, Record.empty,
    computeDisplacement, plainSubE, mapME, nthE, vsub]

lemma dEnvW_eval : with_env_vectors nrm0 false dEnvW = .ok rEnvW := by
  norm_num [with_env_vectors, dEnvW, rEnvW, Record.empty,
    computeDisplacement, plainSubE, mapME, nthE, vsub]

lemma dOnsW_eval : with_onsitenv_vectors nrm0 false dOnsW = .ok rOnsW := by
  norm_num [with_onsitenv_vectors, dOnsW, rOnsW, Record.empty,
    computeDisplacement, plainSubE, mapME, nthE, vsub]

/- ------------------------------------------------------------------ -/
/-  Claim theorems                                                     -/
/- ------------------------------------------------------------------ -/

/-- C3: displacement-vector derivation is idempotent and memoizing for all
three relation kinds: whenever a call succeeds with result `r`, calling the
same operation again on `r` (same lengths flag) returns `r` unchanged — the
vectors field is present in `r`, and the length field is present whenever it
was requested, so the second call hits the memoized branch and is a no-op. -/
theorem C3_displacement_idempotent :
    (∀ (nrm : Vec3 → ℚ) (wl : Bool) (d r : Record),
      with_edge_vectors nrm wl d = .ok r →
      with_edge_vectors nrm wl r = .ok r) ∧
    (∀ (nrm : Vec3 → ℚ) (wl : Bool) (d r : Record),
      with_env_vectors nrm wl d = .ok r →
      with_env_vectors nrm wl r = .ok r) ∧
    (∀ (nrm : Vec3 → ℚ) (wl : Bool) (d r : Record),
      with_onsitenv_vectors nrm wl d = .ok r →
      with_onsitenv_vectors nrm wl r = .ok r) := by
  refine ⟨fun nrm wl d r h => ?_, fun nrm wl d r h => ?_, fun nrm wl d r h => ?_⟩
  · have hpost := wev_ok_post h
    obtain ⟨ev, hev⟩ := Option.isSome_iff_exists.mp hpost.1
    have hcond : (wl && r.edge_lengths.isNone) = false := by
      cases wl with
      | false => rfl
      | true =>
        have hs := hpost.2 rfl
        cases hl : r.edge_lengths with
        | none => rw [hl] at hs; cases hs
        | some l => simp
    simp [with_edge_vectors, hev, hcond]
  · have hpost := wenv_ok_post h
    obtain ⟨ev, hev⟩ := Option.isSome_iff_exists.mp hpost.1
    have hcond : (wl && r.env_lengths.isNone) = false := by
      cases wl with
      | false => rfl
      | true =>
        have hs := hpost.2 rfl
        cases hl : r.env_lengths with
        | none => rw [hl] at hs; cases hs
        | some l => simp
    simp [with_env_vectors, hev, hcond]
  · have hpost := wonsite_ok_post h
    obtain ⟨ev, hev⟩ := Option.isSome_iff_exists.mp hpost.1
    have hcond : (wl && r.onsitenv_lengths.isNone) = false := by
      cases wl with
      | false => rfl
      | true =>
        have hs := hpost.2 rfl
        cases hl : r.onsitenv_lengths with
        | none => rw [hl] at hs; cases hs
        | some l => simp
    simp [with_onsitenv_vectors, hev, hcond]

/-- Witness for C3 at concrete two-atom, one-pair records. -/
theorem C3_displacement_idempotent_witness :
    with_edge_vectors nrm0 false rEdgeW = .ok rEdgeW ∧
    with_env_vectors nrm0 false rEnvW = .ok rEnvW ∧
    with_onsitenv_vectors nrm0 false rOnsW = .ok rOnsW :=
  ⟨C3_displacement_idempotent.1 nrm0 false dEdgeW rEdgeW dEdgeW_eval,
   C3_displacement_idempotent.2.1 nrm0 false dEnvW rEnvW dEnvW_eval,
   C3_displacement_idempotent.2.2 nrm0 false dOnsW rOnsW dOnsW_eval⟩

/-- Positions and one environment pair, no cell, no env vectors yet. -/
def dEnvLen : Record := { Record.empty with
  pos := some [⟨0, 0, 0⟩, ⟨1, 0, 0⟩],
  env_index := some [(0, 1)] }

/-- Positions and one on-site-environment pair, no cell. -/
def dOnsLen : Record := { Record.empty with
  pos := some [⟨0, 0, 0⟩, ⟨1, 0, 0⟩],
  onsitenv_index := some [(0, 1)] }

/-- C4 is a code bug: on the fresh-build path with lengths requested,
`with_env_vectors` and `with_onsitenv_vectors` call
`np.linalg.norm(env_vec, dim=-1)` (lines 137 and 190); numpy `norm` has no
`dim` keyword, so the call raises `TypeError` instead of storing the
Euclidean norms the claim (and the spec) require.  The edge instance, which
uses `axis=-1` (line 84), behaves as claimed.  This theorem evaluates the
embedded code at the failing inputs. -/
theorem C4_env_length_dim_bug :
    with_env_vectors nrm0 true dEnvLen =
      .error (.typeError "norm got an unexpected keyword argument dim") ∧
    with_onsitenv_vectors nrm0 true dOnsLen =
      .error (.typeError "norm got an unexpected keyword argument dim") ∧
    with_edge_vectors nrm0 true dEdgeW =
      .ok { dEdgeW with
            edge_vectors := some [⟨1, 0, 0⟩],
            edge_lengths := some [0] } := by
  refine ⟨?_, ?_, ?_⟩
  · norm_num [with_env_vectors, dEnvLen, Record.empty, computeDisplacement,
      plainSubE, mapME, nthE, vsub]
  · norm_num [with_onsitenv_vectors, dOnsLen, Record.empty,
      computeDisplacement, plainSubE, mapME, nthE, vsub]
  · norm_num [with_edge_vectors, dEdgeW, Record.empty, computeDisplacement,
      plainSubE, mapME, nthE, vsub, nrm0]

/-- A record holding only positions, as handed to `with_batch`. -/
def dPreBatch : Record := { Record.empty with pos := some [vzero, vzero] }

/-- `dPreBatch` as it stands after `with_batch` ran on it. -/
def dPostBatch : Record := { dPreBatch with
  batch := some [0, 0],
  batch_ptr := some [0, 2] }

/-- C5 counterexample: `with_batch` assigns into the dictionary it received
and returns that same dictionary (the source never copies), so after the
call the mapping held by the caller is the returned record `dPostBatch`,
which carries keys (batch, batch pointer) the pre-state `dPreBatch` did not
contain — refuting the claim that the input mapping holds exactly its
original keys after the call. -/
theorem C5_counterexample :
    with_batch dPreBatch = .ok dPostBatch ∧ dPostBatch ≠ dPreBatch := by
  constructor
  · have ha : arangeNat (2 + 1) 2 = .ok [0, 2] := arangeNat_ok (by norm_num)
    norm_num [with_batch, dPreBatch, dPostBatch, Record.empty, ha,
      List.replicate]
  · intro hcontra
    have hb := congrArg Record.batch hcontra
    simp [dPreBatch, dPostBatch, Record.empty] at hb

/-- C5 amended: each data-model operation mutates and returns the record it
received; the post-state at the caller, i.e. the returned record, preserves
every entry except the fields the operation itself derives (its vectors and
lengths, or batch and batch pointer). -/
theorem C5_frame_amended :
    (∀ (nrm : Vec3 → ℚ) (wl : Bool) (d r : Record),
      with_edge_vectors nrm wl d = .ok r → eqExceptEdge d r) ∧
    (∀ (nrm : Vec3 → ℚ) (wl : Bool) (d r : Record),
      with_env_vectors nrm wl d = .ok r → eqExceptEnv d r) ∧
    (∀ (nrm : Vec3 → ℚ) (wl : Bool) (d r : Record),
      with_onsitenv_vectors nrm wl d = .ok r → eqExceptOnsite d r) ∧
    (∀ (d r : Record), with_batch d = .ok r → eqExceptBatch d r) :=
  ⟨fun _ _ _ _ h => wev_frame h, fun _ _ _ _ h => wenv_frame h,
   fun _ _ _ _ h => wonsite_frame h, fun _ _ h => wbatch_frame h⟩

/-- Witness for C5 (amended) at concrete records. -/
theorem C5_frame_amended_witness :
    eqExceptEdge dEdgeW rEdgeW ∧ eqExceptBatch dPreBatch dPostBatch :=
  ⟨C5_frame_amended.1 nrm0 false dEdgeW rEdgeW dEdgeW_eval,
   C5_frame_amended.2.2.2 dPreBatch dPostBatch
     (by
       have ha : arangeNat (2 + 1) 2 = .ok [0, 2] := arangeNat_ok (by norm_num)
       norm_num [with_batch, dPreBatch, dPostBatch, Record.empty, ha,
         List.replicate])⟩

/-- A record with positions present but zero atoms. -/
def dNoAtoms : Record := { Record.empty with pos := some [] }

/-- C6 counterexample: on a record with zero atoms, `with_batch` calls
`np.arange(start=0, stop=1, step=0)`, and numpy raises
`ZeroDivisionError` for a zero step — the claimed batch index `[]` and
pointer `[0, 0]` are never produced. -/
theorem C6_counterexample :
    with_batch dNoAtoms = .error .zeroDivisionError ∧
    with_batch dNoAtoms ≠ .ok { dNoAtoms with
      batch := some [],
      batch_ptr := some [0, 0] } := by
  have h : with_batch dNoAtoms = .error .zeroDivisionError := by
    norm_num [with_batch, dNoAtoms, Record.empty, arangeNat]
  refine ⟨h, ?_⟩
  rw [h]
  intro hc
  cases hc

/-- C6 amended: for records with at least one atom and no batch index,
`with_batch` extends the record with an all-zeros batch index of length
`n_atom` and the batch pointer `[0, n_atom]`; with a batch index already
present the record is returned unchanged. -/
theorem C6_with_batch_amended :
    (∀ (d : Record) (pos : List Vec3), d.batch = none → d.pos = some pos →
      1 ≤ pos.length →
      with_batch d = .ok { d with
        batch := some (List.replicate pos.length 0),
        batch_ptr := some [0, pos.length] }) ∧
    (∀ (d : Record) (b : List Nat), d.batch = some b → with_batch d = .ok d) := by
  constructor
  · intro d pos hb hp hn
    simp [with_batch, hb, hp, arangeNat_ok hn]
  · intro d b hb
    simp [with_batch, hb]

/-- A record with five atoms and no batch field. -/
def dFiveAtoms : Record := { Record.empty with
  pos := some [vzero, vzero, vzero, vzero, vzero] }

/-- Witness for C6 (amended): `n_atom = 5` yields batch `[0,0,0,0,0]` and
pointer `[0, 5]`. -/
theorem C6_with_batch_amended_witness :
    with_batch dFiveAtoms = .ok { dFiveAtoms with
      batch := some (List.replicate 5 0),
      batch_ptr := some [0, 5] } :=
  C6_with_batch_amended.1 dFiveAtoms [vzero, vzero, vzero, vzero, vzero]
    rfl rfl (by decide)

instance (pos : List Vec3) (ei : List (Nat × Nat)) :
    Decidable (boundsOK pos ei) :=
  inferInstanceAs (Decidable (∀ e ∈ ei, e.1 < pos.length ∧ e.2 < pos.length))

/-- Sum of absolute cell entries of an all-zero cell list is zero. -/
lemma sumAbsCells_of_all_zero {cl : List Mat3} (h : ∀ m ∈ cl, m = mzero) :
    sumAbsCells cl = 0 := by
  unfold sumAbsCells
  apply List.sum_eq_zero
  intro q hq
  rcases List.mem_map.mp hq with ⟨m, hm, rfl⟩
  rw [h m hm]
  norm_num [sumAbsMat, mzero, vzero]

/-- Above the gate with the cell-shift field absent, the shift lookup
raises `KeyError` naming the shift key. -/
lemma computeDisplacement_missing_shift {pos : List Vec3}
    {ei : List (Nat × Nat)} {cl : List Mat3} {sk : String}
    {batchOpt : Option (List Nat)} (hb : boundsOK pos ei)
    (hs : cellThreshold < sumAbsCells cl) :
    computeDisplacement pos ei (some cl) none sk batchOpt =
      .error (.keyError sk) := by
  simp [computeDisplacement, plainSubE_ok hb, hs]

/-- A cell matrix with one entry of magnitude `1e-11`: non-zero, but its
absolute entries sum to no more than the `1e-10` gate. -/
def tinyMat : Mat3 := ⟨⟨1 / 10 ^ 11, 0, 0⟩, vzero, vzero⟩

/-- Two atoms, one edge, a shift, and a single tiny (non-zero) cell. -/
def dTinyCell : Record := { Record.empty with
  pos := some [⟨0, 0, 0⟩, ⟨1, 0, 0⟩],
  edge_index := some [(0, 1)],
  edge_cell_shift := some [⟨1, 0, 0⟩],
  cell := some [tinyMat] }

/-- C2 counterexample: `dTinyCell` has a single non-zero cell and a shift,
yet the derived displacement is the bare subtraction `⟨1,0,0⟩` — the gate
is `sum(|cell|) > 1e-10`, not non-zeroness, so the claimed value
`positions[target] - positions[source] + shift · cell` (which here is
`⟨1 + 1e-11, 0, 0⟩`, cf. `claimedSingleVecs`) is not produced. -/
theorem C2_counterexample :
    with_edge_vectors nrm0 false dTinyCell =
      .ok { dTinyCell with edge_vectors := some [⟨1, 0, 0⟩] } ∧
    claimedSingleVecs [⟨0, 0, 0⟩, ⟨1, 0, 0⟩] [(0, 1)] [⟨1, 0, 0⟩] tinyMat ≠
      [⟨1, 0, 0⟩] := by
  constructor
  · have hb : boundsOK [⟨0, 0, 0⟩, ⟨1, 0, 0⟩] [(0, 1)] := by decide
    have hsum : sumAbsCells [tinyMat] ≤ cellThreshold := by
      norm_num [sumAbsCells, sumAbsMat, tinyMat, vzero, cellThreshold,
        abs_of_nonneg]
    have hc := @computeDisplacement_small_cell _ _ _
      (some [(⟨1, 0, 0⟩ : Vec3)]) edgeCellShiftKey none hb hsum
    have hw := @wev_fresh nrm0 false dTinyCell _ _ _ rfl rfl rfl hc
    rw [hw]
    norm_num [plainVecs, vsub]
  · intro hcontra
    have hx := congrArg (fun l => (l.getD 0 vzero).x) hcontra
    norm_num [claimedSingleVecs, vadd, vsub, rowDot, vsmul, tinyMat,
      vzero] at hx

/-- C2 amended: with the cell absent or all-zero the derivation returns the
plain pairwise subtraction; with a single cell whose absolute entries sum to
more than `1e-10` (rather than merely a non-zero cell) and a shift of
matching length, it returns `positions[target] - positions[source] +
shift · cell` per edge. -/
theorem C2_displacement_amended :
    (∀ (nrm : Vec3 → ℚ) (d : Record) (pos : List Vec3)
        (ei : List (Nat × Nat)),
      d.edge_vectors = none → d.pos = some pos → d.edge_index = some ei →
      boundsOK pos ei →
      (d.cell = none ∨ ∃ cl, d.cell = some cl ∧ ∀ m ∈ cl, m = mzero) →
      with_edge_vectors nrm false d =
        .ok { d with edge_vectors := some (plainVecs pos ei) }) ∧
    (∀ (nrm : Vec3 → ℚ) (d : Record) (pos : List Vec3)
        (ei : List (Nat × Nat)) (c : Mat3) (shifts : List Vec3),
      d.edge_vectors = none → d.pos = some pos → d.edge_index = some ei →
      boundsOK pos ei → d.cell = some [c] →
      cellThreshold < sumAbsCells [c] → d.edge_cell_shift = some shifts →
      shifts.length = ei.length →
      with_edge_vectors nrm false d =
        .ok { d with
          edge_vectors := some (claimedSingleVecs pos ei shifts c) }) := by
  constructor
  · intro nrm d pos ei hv hp he hb hcell
    have hc : computeDisplacement pos ei d.cell d.edge_cell_shift
        edgeCellShiftKey d.batch = .ok (plainVecs pos ei) := by
      rcases hcell with hnone | ⟨cl, hsome, hzero⟩
      · rw [hnone]
        exact computeDisplacement_no_cell hb
      · rw [hsome]
        refine computeDisplacement_small_cell hb ?_
        rw [sumAbsCells_of_all_zero hzero]
        norm_num [cellThreshold]
    simpa using @wev_fresh nrm false _ _ _ _ hv hp he hc
  · intro nrm d pos ei c shifts hv hp he hb hcell hsum hshift hlen
    have hc : computeDisplacement pos ei d.cell d.edge_cell_shift
        edgeCellShiftKey d.batch = .ok (claimedSingleVecs pos ei shifts c) := by
      rw [hcell, hshift]
      exact computeDisplacement_single_cell hb hsum hlen
    simpa using @wev_fresh nrm false _ _ _ _ hv hp he hc

/-- A cell large enough to clear the gate. -/
def bigMat : Mat3 := ⟨⟨2, 0, 0⟩, ⟨0, 2, 0⟩, ⟨0, 0, 2⟩⟩

/-- Two atoms, one edge, one shift, a single large cell. -/
def dBigCell : Record := { Record.empty with
  pos := some [⟨0, 0, 0⟩, ⟨1, 0, 0⟩],
  edge_index := some [(0, 1)],
  edge_cell_shift := some [⟨1, 0, 0⟩],
  cell := some [bigMat] }

/-- Witness for C2 (amended): a no-cell record gets the plain subtraction,
and a large single-cell record gets the per-edge corrected value. -/
theorem C2_displacement_amended_witness :
    with_edge_vectors nrm0 false dEdgeW =
      .ok { dEdgeW with
        edge_vectors := some (plainVecs [⟨0, 0, 0⟩, ⟨1, 0, 0⟩] [(0, 1)]) } ∧
    with_edge_vectors nrm0 false dBigCell =
      .ok { dBigCell with
        edge_vectors := some (claimedSingleVecs [⟨0, 0, 0⟩, ⟨1, 0, 0⟩]
            [(0, 1)] [⟨1, 0, 0⟩] bigMat) } :=
  ⟨C2_displacement_amended.1 nrm0 dEdgeW [⟨0, 0, 0⟩, ⟨1, 0, 0⟩] [(0, 1)]
     rfl rfl rfl (by decide) (Or.inl rfl),
   C2_displacement_amended.2 nrm0 dBigCell [⟨0, 0, 0⟩, ⟨1, 0, 0⟩] [(0, 1)]
     bigMat [⟨1, 0, 0⟩] rfl rfl rfl (by decide) rfl
     (by norm_num [cellThreshold, sumAbsCells, sumAbsMat, bigMat,
       abs_of_nonneg]) rfl
     (by decide)⟩

/-- Two sub-structures (batch 0 and 1) with different cells, both tiny:
atom 1 belongs to batch 1 whose cell is `tinyMat`. -/
def dBatchTiny : Record := { Record.empty with
  pos := some [⟨0, 0, 0⟩, ⟨1, 0, 0⟩],
  edge_index := some [(1, 0)],
  edge_cell_shift := some [⟨1, 0, 0⟩],
  cell := some [mzero, tinyMat],
  batch := some [0, 1] }

/-- C1 counterexample: a batched record whose two cells are different but
whose absolute entries sum to at most `1e-10` receives no correction at
all, so the edge with source atom in batch 1 does not receive the claimed
correction `shift · cell[batch[source]]` (cf. `claimedBatchedVecs`, which
would give `⟨-1 + 1e-11, 0, 0⟩` instead of the code result `⟨-1, 0, 0⟩`). -/
theorem C1_counterexample :
    with_edge_vectors nrm0 false dBatchTiny =
      .ok { dBatchTiny with edge_vectors := some [⟨-1, 0, 0⟩] } ∧
    claimedBatchedVecs [⟨0, 0, 0⟩, ⟨1, 0, 0⟩] [(1, 0)] [⟨1, 0, 0⟩]
      [mzero, tinyMat] [0, 1] ≠ [⟨-1, 0, 0⟩] := by
  constructor
  · have hb : boundsOK [⟨0, 0, 0⟩, ⟨1, 0, 0⟩] [(1, 0)] := by decide
    have hsum : sumAbsCells [mzero, tinyMat] ≤ cellThreshold := by
      norm_num [sumAbsCells, sumAbsMat, tinyMat, mzero, vzero, cellThreshold,
        abs_of_nonneg]
    have hc := @computeDisplacement_small_cell _ _ _
      (some [(⟨1, 0, 0⟩ : Vec3)]) edgeCellShiftKey (some [0, 1]) hb hsum
    have hw := @wev_fresh nrm0 false dBatchTiny _ _ _ rfl rfl rfl hc
    rw [hw]
    norm_num [plainVecs, vsub]
  · intro hcontra
    have hx := congrArg (fun l => (l.getD 0 vzero).x) hcontra
    norm_num [claimedBatchedVecs, vadd, vsub, rowDot, vsmul, tinyMat,
      mzero, vzero] at hx

/-- C1 amended: when the cell array has more than one leading entry and its
absolute entries sum to more than `1e-10`, the derivation adds, per edge,
exactly `shift · cell[batch[source]]` — formalised as equality with the
claim-side `claimedBatchedVecs`, whose every component uses the cell of
the source atom of that edge and no other. -/
theorem C1_batched_correction_amended :
    ∀ (nrm : Vec3 → ℚ) (d : Record) (pos : List Vec3)
      (ei : List (Nat × Nat)) (cl : List Mat3) (shifts : List Vec3)
      (batch : List Nat),
      d.edge_vectors = none → d.pos = some pos → d.edge_index = some ei →
      d.cell = some cl → d.edge_cell_shift = some shifts →
      d.batch = some batch → boundsOK pos ei → 1 < cl.length →
      cellThreshold < sumAbsCells cl → shifts.length = ei.length →
      (∀ p ∈ ei.zip shifts, p.1.1 < batch.length ∧
        batch.getD p.1.1 0 < cl.length) →
      with_edge_vectors nrm false d =
        .ok { d with
          edge_vectors := some (claimedBatchedVecs pos ei shifts cl
            batch) } := by
  intro nrm d pos ei cl shifts batch hv hp he hcell hshift hbatch hb hn hsum
    hlen hg
  have hc : computeDisplacement pos ei d.cell d.edge_cell_shift
      edgeCellShiftKey d.batch =
      .ok (claimedBatchedVecs pos ei shifts cl batch) := by
    rw [hcell, hshift, hbatch]
    exact computeDisplacement_batched hb hn hsum hg hlen
  simpa using @wev_fresh nrm false _ _ _ _ hv hp he hc

/-- A second large cell, different from `bigMat`. -/
def bigMatB : Mat3 := ⟨⟨3, 0, 0⟩, ⟨0, 3, 0⟩, ⟨0, 0, 3⟩⟩

/-- Two sub-structures with different large cells and one edge in each. -/
def dBatchBig : Record := { Record.empty with
  pos := some [⟨0, 0, 0⟩, ⟨4, 0, 0⟩],
  edge_index := some [(0, 0), (1, 1)],
  edge_cell_shift := some [⟨1, 0, 0⟩, ⟨1, 0, 0⟩],
  cell := some [bigMat, bigMatB],
  batch := some [0, 1] }

/-- Witness for C1 (amended) at a batched record with two distinct cells. -/
theorem C1_batched_correction_amended_witness :
    with_edge_vectors nrm0 false dBatchBig =
      .ok { dBatchBig with
        edge_vectors := some (claimedBatchedVecs [⟨0, 0, 0⟩, ⟨4, 0, 0⟩]
            [(0, 0), (1, 1)] [⟨1, 0, 0⟩, ⟨1, 0, 0⟩] [bigMat, bigMatB]
            [0, 1]) } :=
  C1_batched_correction_amended nrm0 dBatchBig [⟨0, 0, 0⟩, ⟨4, 0, 0⟩]
    [(0, 0), (1, 1)] [bigMat, bigMatB] [⟨1, 0, 0⟩, ⟨1, 0, 0⟩] [0, 1]
    rfl rfl rfl rfl rfl rfl (by decide) (by decide)
    (by norm_num [cellThreshold, sumAbsCells, sumAbsMat, bigMat, bigMatB,
      abs_of_nonneg])
    (by decide) (by decide)

/-- C10: the periodic correction is gated by the magnitude test
`sum(|cell|) > 1e-10`, not by exact zero.  At or below the gate, all three
derivations return the plain subtraction and never read the cell-shift or
batch fields (the statements place no hypothesis on those fields, which may
in particular be `none` without an error); above the gate with the shift
field absent, the derivation fails with a `KeyError` naming the shift key —
the correction branch (which starts by reading the shift field) is taken
exactly when the sum exceeds the gate.  The env/onsitenv statements use
`with_lengths = false` because their fresh-build length path raises the
unrelated `dim` TypeError (settled separately). -/
theorem C10_threshold_gate :
    (∀ (nrm : Vec3 → ℚ) (wl : Bool) (d : Record) (pos : List Vec3)
        (ei : List (Nat × Nat)) (cl : List Mat3),
      d.edge_vectors = none → d.pos = some pos → d.edge_index = some ei →
      boundsOK pos ei → d.cell = some cl →
      sumAbsCells cl ≤ cellThreshold →
      with_edge_vectors nrm wl d =
        .ok (if wl then
          { d with
            edge_vectors := some (plainVecs pos ei),
            edge_lengths := some ((plainVecs pos ei).map nrm) }
        else
          { d with edge_vectors := some (plainVecs pos ei) })) ∧
    (∀ (nrm : Vec3 → ℚ) (d : Record) (pos : List Vec3)
        (ei : List (Nat × Nat)) (cl : List Mat3),
      d.env_vectors = none → d.pos = some pos → d.env_index = some ei →
      boundsOK pos ei → d.cell = some cl →
      sumAbsCells cl ≤ cellThreshold →
      with_env_vectors nrm false d =
        .ok { d with env_vectors := some (plainVecs pos ei) }) ∧
    (∀ (nrm : Vec3 → ℚ) (d : Record) (pos : List Vec3)
        (ei : List (Nat × Nat)) (cl : List Mat3),
      d.onsitenv_vectors = none → d.pos = some pos →
      d.onsitenv_index = some ei → boundsOK pos ei → d.cell = some cl →
      sumAbsCells cl ≤ cellThreshold →
      with_onsitenv_vectors nrm false d =
        .ok { d with onsitenv_vectors := some (plainVecs pos ei) }) ∧
    (∀ (nrm : Vec3 → ℚ) (wl : Bool) (d : Record) (pos : List Vec3)
        (ei : List (Nat × Nat)) (cl : List Mat3),
      d.edge_vectors = none → d.pos = some pos → d.edge_index = some ei →
      boundsOK pos ei → d.cell = some cl →
      cellThreshold < sumAbsCells cl → d.edge_cell_shift = none →
      with_edge_vectors nrm wl d = .error (.keyError edgeCellShiftKey)) ∧
    (∀ (nrm : Vec3 → ℚ) (wl : Bool) (d : Record) (pos : List Vec3)
        (ei : List (Nat × Nat)) (cl : List Mat3),
      d.env_vectors = none → d.pos = some pos → d.env_index = some ei →
      boundsOK pos ei → d.cell = some cl →
      cellThreshold < sumAbsCells cl → d.env_cell_shift = none →
      with_env_vectors nrm wl d = .error (.keyError envCellShiftKey)) ∧
    (∀ (nrm : Vec3 → ℚ) (wl : Bool) (d : Record) (pos : List Vec3)
        (ei : List (Nat × Nat)) (cl : List Mat3),
      d.onsitenv_vectors = none → d.pos = some pos →
      d.onsitenv_index = some ei → boundsOK pos ei → d.cell = some cl →
      cellThreshold < sumAbsCells cl → d.onsitenv_cell_shift = none →
      with_onsitenv_vectors nrm wl d =
        .error (.keyError onsitenvCellShiftKey)) := by
  refine ⟨?_, ?_, ?_, ?_, ?_, ?_⟩
  · intro nrm wl d pos ei cl hv hp he hb hcell hsum
    have hc : computeDisplacement pos ei d.cell d.edge_cell_shift
        edgeCellShiftKey d.batch = .ok (plainVecs pos ei) := by
      rw [hcell]
      exact computeDisplacement_small_cell hb hsum
    exact wev_fresh hv hp he hc
  · intro nrm d pos ei cl hv hp he hb hcell hsum
    have hc : computeDisplacement pos ei d.cell d.env_cell_shift
        envCellShiftKey d.batch = .ok (plainVecs pos ei) := by
      rw [hcell]
      exact computeDisplacement_small_cell hb hsum
    exact wenv_fresh_false hv hp he hc
  · intro nrm d pos ei cl hv hp he hb hcell hsum
    have hc : computeDisplacement pos ei d.cell d.onsitenv_cell_shift
        onsitenvCellShiftKey d.batch = .ok (plainVecs pos ei) := by
      rw [hcell]
      exact computeDisplacement_small_cell hb hsum
    exact wonsite_fresh_false hv hp he hc
  · intro nrm wl d pos ei cl hv hp he hb hcell hsum hshift
    have hc : computeDisplacement pos ei d.cell d.edge_cell_shift
        edgeCellShiftKey d.batch = .error (.keyError edgeCellShiftKey) := by
      rw [hcell, hshift]
      exact computeDisplacement_missing_shift hb hsum
    simp [with_edge_vectors, hv, hp, he, hc]
  · intro nrm wl d pos ei cl hv hp he hb hcell hsum hshift
    have hc : computeDisplacement pos ei d.cell d.env_cell_shift
        envCellShiftKey d.batch = .error (.keyError envCellShiftKey) := by
      rw [hcell, hshift]
      exact computeDisplacement_missing_shift hb hsum
    simp [with_env_vectors, hv, hp, he, hc]
  · intro nrm wl d pos ei cl hv hp he hb hcell hsum hshift
    have hc : computeDisplacement pos ei d.cell d.onsitenv_cell_shift
        onsitenvCellShiftKey d.batch =
        .error (.keyError onsitenvCellShiftKey) := by
      rw [hcell, hshift]
      exact computeDisplacement_missing_shift hb hsum
    simp [with_onsitenv_vectors, hv, hp, he, hc]

/-- Tiny cell, no shift, no batch: edge relation. -/
def dGateE : Record := { Record.empty with
  pos := some [⟨0, 0, 0⟩, ⟨1, 0, 0⟩],
  edge_index := some [(0, 1)],
  cell := some [tinyMat] }

/-- Tiny cell, no shift, no batch: env relation. -/
def dGateN : Record := { Record.empty with
  pos := some [⟨0, 0, 0⟩, ⟨1, 0, 0⟩],
  env_index := some [(0, 1)],
  cell := some [tinyMat] }

/-- Tiny cell, no shift, no batch: on-site-env relation. -/
def dGateO : Record := { Record.empty with
  pos := some [⟨0, 0, 0⟩, ⟨1, 0, 0⟩],
  onsitenv_index := some [(0, 1)],
  cell := some [tinyMat] }

/-- Large cell, shift absent: edge relation. -/
def dGateEBig : Record := { Record.empty with
  pos := some [⟨0, 0, 0⟩, ⟨1, 0, 0⟩],
  edge_index := some [(0, 1)],
  cell := some [bigMat] }

/-- Large cell, shift absent: env relation. -/
def dGateNBig : Record := { Record.empty with
  pos := some [⟨0, 0, 0⟩, ⟨1, 0, 0⟩],
  env_index := some [(0, 1)],
  cell := some [bigMat] }

/-- Large cell, shift absent: on-site-env relation. -/
def dGateOBig : Record := { Record.empty with
  pos := some [⟨0, 0, 0⟩, ⟨1, 0, 0⟩],
  onsitenv_index := some [(0, 1)],
  cell := some [bigMat] }

lemma sumAbs_tiny_le : sumAbsCells [tinyMat] ≤ cellThreshold := by
  norm_num [sumAbsCells, sumAbsMat, tinyMat, vzero, cellThreshold,
    abs_of_nonneg]

lemma sumAbs_big_gt : cellThreshold < sumAbsCells [bigMat] := by
  norm_num [sumAbsCells, sumAbsMat, bigMat, vzero, cellThreshold,
    abs_of_nonneg]

/-- Witness for C10: records with a tiny non-zero cell and no shift/batch
succeed with the plain subtraction; records with a large cell and no shift
fail with the KeyError for the shift field. -/
theorem C10_threshold_gate_witness :
    with_edge_vectors nrm0 true dGateE =
      .ok { dGateE with
        edge_vectors := some (plainVecs [⟨0, 0, 0⟩, ⟨1, 0, 0⟩] [(0, 1)]),
        edge_lengths := some ((plainVecs [⟨0, 0, 0⟩, ⟨1, 0, 0⟩]
          [(0, 1)]).map nrm0) } ∧
    with_env_vectors nrm0 false dGateN =
      .ok { dGateN with
        env_vectors := some (plainVecs [⟨0, 0, 0⟩, ⟨1, 0, 0⟩] [(0, 1)]) } ∧
    with_onsitenv_vectors nrm0 false dGateO =
      .ok { dGateO with
        onsitenv_vectors := some (plainVecs [⟨0, 0, 0⟩, ⟨1, 0, 0⟩]
          [(0, 1)]) } ∧
    with_edge_vectors nrm0 true dGateEBig =
      .error (.keyError edgeCellShiftKey) ∧
    with_env_vectors nrm0 true dGateNBig =
      .error (.keyError envCellShiftKey) ∧
    with_onsitenv_vectors nrm0 true dGateOBig =
      .error (.keyError onsitenvCellShiftKey) :=
  ⟨by
     simpa using C10_threshold_gate.1 nrm0 true dGateE
       [⟨0, 0, 0⟩, ⟨1, 0, 0⟩] [(0, 1)] [tinyMat] rfl rfl rfl (by decide)
       rfl sumAbs_tiny_le,
   C10_threshold_gate.2.1 nrm0 dGateN [⟨0, 0, 0⟩, ⟨1, 0, 0⟩] [(0, 1)]
     [tinyMat] rfl rfl rfl (by decide) rfl sumAbs_tiny_le,
   C10_threshold_gate.2.2.1 nrm0 dGateO [⟨0, 0, 0⟩, ⟨1, 0, 0⟩] [(0, 1)]
     [tinyMat] rfl rfl rfl (by decide) rfl sumAbs_tiny_le,
   C10_threshold_gate.2.2.2.1 nrm0 true dGateEBig [⟨0, 0, 0⟩, ⟨1, 0, 0⟩]
     [(0, 1)] [bigMat] rfl rfl rfl (by decide) rfl sumAbs_big_gt rfl,
   C10_threshold_gate.2.2.2.2.1 nrm0 true dGateNBig [⟨0, 0, 0⟩, ⟨1, 0, 0⟩]
     [(0, 1)] [bigMat] rfl rfl rfl (by decide) rfl sumAbs_big_gt rfl,
   C10_threshold_gate.2.2.2.2.2 nrm0 true dGateOBig [⟨0, 0, 0⟩, ⟨1, 0, 0⟩]
     [(0, 1)] [bigMat] rfl rfl rfl (by decide) rfl sumAbs_big_gt rfl⟩

/-- A structure record whose positions array has rank 2 (missing the frame
dimension); every other field is well-formed. -/
def sRank2Pos : StructRecord :=
  ⟨some ⟨[2], .int32⟩, some ⟨[2, 3], .float32⟩, some ⟨[1, 3, 3], .float32⟩,
    some ⟨[3], .bool8⟩⟩

/-- A structure record whose atomic numbers are 64-bit integers; every
other field is well-formed. -/
def sInt64AN : StructRecord :=
  ⟨some ⟨[2], .int64⟩, some ⟨[1, 2, 3], .float32⟩, some ⟨[1, 3, 3], .float32⟩,
    some ⟨[3], .bool8⟩⟩

/-- A fully well-formed structure record (one frame, two atoms). -/
def sGood : StructRecord :=
  ⟨some ⟨[2], .int32⟩, some ⟨[1, 2, 3], .float32⟩, some ⟨[1, 3, 3], .float32⟩,
    some ⟨[3], .bool8⟩⟩

/-- C7: structure validation accepts exactly the records satisfying the
claimed shape and dtype invariants (`specStructOK` is the claim, word for
word); a rank-2 positions array is rejected with the shape assertion
message, and 64-bit atomic numbers with the dtype assertion message — each
error names the violated invariant. -/
theorem C7_check_structure :
    (∀ s : StructRecord, check_structure s = .ok true ↔
      specStructOK s = true) ∧
    check_structure sRank2Pos =
      .error (.assertionError
        "The shape of structure should be (n_frame, natom, 3)") ∧
    check_structure sInt64AN =
      .error (.assertionError "The dtype of atomic_number should be int") :=
  ⟨check_structure_iff, by decide, by decide⟩

/-- Witness for C7: a well-formed record is accepted via the equivalence. -/
theorem C7_check_structure_witness : check_structure sGood = .ok true :=
  (C7_check_structure.1 sGood).mpr (by decide)

/-- C8: writing a structure with `n` frames into a fresh key-value store
produces exactly `n` entries; entry `k` is keyed by the 4-byte big-endian
encoding of `k` (the entry count at the moment of that append) and holds
the frame mapping whose `idx` field is the source index passed to the
writer and whose `nf` field is the frame position `k`. -/
theorem C8_write_lmdb :
    ∀ (structure_ : LmdbStruct) (idx : Nat),
      structure_.cellFrames.length = structure_.posFrames.length →
      structure_.posFrames.length ≤ 2 ^ 32 →
      write_lmdb structure_ idx [] = .ok (specLmdbStore structure_ idx) ∧
      (specLmdbStore structure_ idx).length =
        structure_.posFrames.length ∧
      (∀ nf, nf < structure_.posFrames.length →
        (specLmdbStore structure_ idx).get? nf =
          some (natToBytes4 nf, frameAt structure_ idx nf) ∧
        (frameAt structure_ idx nf).idx = idx ∧
        (frameAt structure_ idx nf).nf = nf) := by
  intro structure_ idx hcl hfit
  refine ⟨write_lmdb_fresh structure_ idx hcl hfit, by simp [specLmdbStore],
    fun nf hnf => ⟨?_, rfl, rfl⟩⟩
  rw [show specLmdbStore structure_ idx =
    expectedPrefix structure_ idx structure_.posFrames.length from rfl]
  simp only [expectedPrefix, List.get?_eq_getElem?, List.getElem?_map,
    List.getElem?_range hnf]
  rfl

/-- A concrete two-frame structure for the C8 witness. -/
def sLmdb2 : LmdbStruct :=
  ⟨[1, 8], [mzero, bigMat], [[vzero], [⟨1, 2, 3⟩]], (true, true, true)⟩

/-- Witness for C8 at a two-frame structure with source index 7. -/
theorem C8_write_lmdb_witness :
    write_lmdb sLmdb2 7 [] = .ok (specLmdbStore sLmdb2 7) ∧
    (specLmdbStore sLmdb2 7).length = 2 :=
  ⟨(C8_write_lmdb sLmdb2 7 (by decide) (by decide)).1,
   (C8_write_lmdb sLmdb2 7 (by decide) (by decide)).2.1⟩

/-- C9: the write entry point rejects every format outside
{hdf5, dat, ase, lmdb} with a NotImplementedError naming the requested
format and selects no writer (the embedded dispatch returns only the
selected writer call, so the error branch performs no writes); backend
construction rejects every name missing from the registry with an
Exception naming the requested key and constructs nothing. -/
theorem C9_unknown_format_and_backend :
    (∀ format : String, format ≠ "hdf5" → format ≠ "dat" →
      format ≠ "ase" → format ≠ "lmdb" →
      writeDispatch format =
        .error (.notImplementedError
          ("Format: " ++ format ++ " is not implemented!"))) ∧
    (∀ (α β : Type) (reg : List (String × (α → β))) (mode : String)
        (kwargs : α),
      regLookup reg mode = none →
      parserRegisterNew reg mode kwargs =
        .error (.exceptionMsg
          ("Descriptor mode: " ++ mode ++ " is not registered!"))) := by
  constructor
  · intro format h1 h2 h3 h4
    simp [writeDispatch, h1, h2, h3, h4]
  · intro α β reg mode kwargs h
    simp [parserRegisterNew, h]

/-- Witness for C9: the format "npz" and, against a registry holding only
"vasp", the backend name "gaussian". -/
theorem C9_unknown_format_and_backend_witness :
    writeDispatch "npz" =
      .error (.notImplementedError "Format: npz is not implemented!") ∧
    parserRegisterNew [("vasp", fun _ : Unit => (0 : Nat))] "gaussian" () =
      .error (.exceptionMsg "Descriptor mode: gaussian is not registered!") :=
  ⟨C9_unknown_format_and_backend.1 "npz" (by decide) (by decide) (by decide)
     (by decide),
   C9_unknown_format_and_backend.2 Unit Nat
     [("vasp", fun _ : Unit => (0 : Nat))] "gaussian" () (by
       simp [regLookup])⟩

end Dftio
